import Mathlib

/-!
Verification of the photo-blog publishing pipeline (app/ai_processor.py,
app/content_builder.py, app/drive_manager.py, app/pipeline.py).

Python strings are modelled as `List Char` (or `String` where convenient),
stateful HTTP interaction as explicit sequences of responses, and fallible
Python code as `Except`-valued functions.  Machine-level concerns (file
system, actual sockets) are abstracted into parameters of the model.
-/

set_option maxRecDepth 4000

namespace Hy

/-- Python `str.isspace` characters relevant here (the ASCII whitespace set
used by `str.strip`, `\s` in `re`, and `str.split`). -/
def pyIsSpace (c : Char) : Bool :=
  c == ' ' || c == '\t' || c == '\n' || c == '\r' || c == '\x0b' || c == '\x0c'

/-- Drop trailing characters satisfying `p` (helper for Python `str.strip`). -/
def dropTrail (p : Char → Bool) (l : List Char) : List Char :=
  (l.reverse.dropWhile p).reverse

/-- Python `str.strip()` (no argument): remove leading and trailing whitespace. -/
def pyStrip (l : List Char) : List Char :=
  dropTrail pyIsSpace (l.dropWhile pyIsSpace)

/-- Python `str.strip(chars)`: remove leading and trailing characters that
appear in `cs`. -/
def pyStripChars (cs : List Char) (l : List Char) : List Char :=
  dropTrail (fun c => cs.contains c) (l.dropWhile (fun c => cs.contains c))

/-- `String`-level wrapper for `pyStrip`. -/
def pyStripS (s : String) : String :=
  (pyStrip s.toList).asString

/-- Does `p` occur at the very start of `s`?  (Character-level prefix test
used to model Python's substring search in `str.replace`.) -/
def isPre : List Char → List Char → Bool
  | [], _ => true
  | _ :: _, [] => false
  | a :: as, b :: bs => if a = b then isPre as bs else false

/-- Worker for `strReplace`.  `skip` counts characters still to be consumed
silently after a match has been emitted (the matched region is replaced, not
copied).  Left-to-right, non-overlapping, exactly Python `str.replace`. -/
def srAux (pat rep : List Char) : Nat → List Char → List Char
  | _, [] => []
  | skip + 1, _ :: cs => srAux pat rep skip cs
  | 0, c :: cs =>
    if pat ≠ [] ∧ isPre pat (c :: cs) then
      rep ++ srAux pat rep (pat.length - 1) cs
    else
      c :: srAux pat rep 0 cs

/-- Python `s.replace(pat, rep)` for nonempty `pat` (the model maps the
degenerate empty pattern to the identity; every pattern used by the
program is nonempty). -/
def strReplace (s pat rep : List Char) : List Char :=
  srAux pat rep 0 s

theorem isPre_self (p t : List Char) : isPre p (p ++ t) = true := by
  induction p with
  | nil => rfl
  | cons a as ih => simp [isPre, ih]

/-- Character-by-character mismatch between `p` and `s` on their common
range; a mismatch rules out `p` being a prefix of any extension of `s`. -/
def mism (p s : List Char) : Bool :=
  (p.zip s).any (fun x => x.1 != x.2)

theorem isPre_false_of_mism :
    ∀ (p s t : List Char), mism p s = true → isPre p (s ++ t) = false := by
  intro p
  induction p with
  | nil => intro s t h; simp [mism] at h
  | cons a as ih =>
    intro s t h
    cases s with
    | nil => simp [mism] at h
    | cons b bs =>
      simp only [mism, List.zip_cons_cons, List.any_cons, Bool.or_eq_true] at h
      rcases h with h | h
      · simp only [bne_iff_ne, ne_eq] at h
        simp [isPre, h]
      · by_cases hab : a = b
        · simpa [isPre, hab] using ih bs t h
        · simp [isPre, hab]

theorem srAux_skip (pat rep : List Char) :
    ∀ (l t : List Char), srAux pat rep l.length (l ++ t) = srAux pat rep 0 t := by
  intro l
  induction l with
  | nil => intro t; rfl
  | cons c cs ih => intro t; simpa [srAux] using ih t

theorem srAux_cons (pat rep : List Char) (c : Char) (cs : List Char) :
    srAux pat rep 0 (c :: cs)
      = if pat ≠ [] ∧ isPre pat (c :: cs) = true then
          rep ++ srAux pat rep (pat.length - 1) cs
        else c :: srAux pat rep 0 cs := rfl

theorem srAux_no_match {pat : List Char} (rep : List Char) {c : Char} {cs : List Char}
    (h : isPre pat (c :: cs) = false) :
    srAux pat rep 0 (c :: cs) = c :: srAux pat rep 0 cs := by
  rw [srAux_cons, if_neg]
  rintro ⟨-, hb⟩
  rw [h] at hb
  exact Bool.false_ne_true hb

theorem srAux_match (pat rep t : List Char) (hp : pat ≠ []) :
    srAux pat rep 0 (pat ++ t) = rep ++ srAux pat rep 0 t := by
  cases pat with
  | nil => exact absurd rfl hp
  | cons p ps =>
    have hpre : isPre (p :: ps) (p :: (ps ++ t)) = true := by
      have := isPre_self (p :: ps) t
      simpa using this
    have hskip := srAux_skip (p :: ps) rep ps t
    rw [List.cons_append, srAux_cons, if_pos ⟨by simp, hpre⟩]
    simp only [List.length_cons, Nat.add_sub_cancel]
    rw [hskip]

/-- A segment `q` is transparent for `pat` when replacing `pat` in any
string starting with `q` leaves `q` untouched and continues behind it. -/
def Transparent (pat q : List Char) : Prop :=
  ∀ (rep t : List Char), srAux pat rep 0 (q ++ t) = q ++ srAux pat rep 0 t

theorem transparent_nil (pat : List Char) : Transparent pat [] := by
  intro rep t; rfl

theorem transparent_append {pat a b : List Char}
    (ha : Transparent pat a) (hb : Transparent pat b) :
    Transparent pat (a ++ b) := by
  intro rep t
  rw [List.append_assoc, ha rep (b ++ t), hb rep t, List.append_assoc]

theorem transparent_of_mism {pat q : List Char}
    (h : ∀ j, j < q.length → mism pat (q.drop j) = true) :
    Transparent pat q := by
  induction q with
  | nil => exact transparent_nil pat
  | cons c cs ih =>
    intro rep t
    have h0 : mism pat (c :: cs) = true := by simpa using h 0 (by simp)
    have hpre : isPre pat (c :: (cs ++ t)) = false := by
      have := isPre_false_of_mism pat (c :: cs) t h0
      simpa using this
    rw [List.cons_append, srAux_no_match rep hpre,
      ih (fun j hj => by simpa using h (j + 1) (by simpa using hj)) rep t]
    rfl

theorem transparent_self (pat q : List Char) (hq : Transparent pat q) :
    ∀ rep, srAux pat rep 0 q = q := by
  intro rep
  have := hq rep []
  simpa [srAux] using this

/-- Characters other than `'['` can never start a `"[[IMAGE_"`-style token. -/
def brFree (s : List Char) : Prop := ∀ c ∈ s, c ≠ '['

theorem transparent_of_brFree {pat q : List Char} (hpat : ∃ p', pat = '[' :: p')
    (hq : brFree q) : Transparent pat q := by
  obtain ⟨p', rfl⟩ := hpat
  induction q with
  | nil => exact transparent_nil _
  | cons c cs ih =>
    intro rep t
    have hc : c ≠ '[' := hq c (by simp)
    have hpre : isPre ('[' :: p') (c :: (cs ++ t)) = false := by
      unfold isPre
      rw [if_neg (fun h : '[' = c => hc h.symm)]
    rw [List.cons_append, srAux_no_match rep hpre,
      ih (fun d hd => hq d (by simp [hd])) rep t]
    rfl

theorem strReplace_once {pat a b : List Char} (rep : List Char)
    (ha : Transparent pat a) (hp : pat ≠ []) (hb : Transparent pat b) :
    strReplace (a ++ (pat ++ b)) pat rep = a ++ (rep ++ b) := by
  unfold strReplace
  rw [ha rep (pat ++ b), srAux_match pat rep b hp, transparent_self pat b hb rep]

theorem brFree_append {a b : List Char} (ha : brFree a) (hb : brFree b) :
    brFree (a ++ b) := by
  intro c hc
  rcases List.mem_append.1 hc with h | h
  · exact ha c h
  · exact hb c h

/-!
### `ContentBuilder._inject_images` (content_builder.py lines 65-77)

The loop replaces `[[IMAGE_i]]` for `i = 1..4` by the `i`-th web path when
available and by the empty string otherwise, and then the regular
expression substitution `re.sub(r"\)\s*!\[", ")\n\n![", result)` forces a
blank line between a closing parenthesis and a following image tag.
-/

/-- The literal placeholder `f"[[IMAGE_{i}]]"`. -/
def tok (i : Nat) : List Char :=
  "[[IMAGE_".toList ++ (Nat.repr i).toList ++ "]]".toList

/-- Scanner for `re.sub(r"\)\s*!\[", ")\n\n![", s)`.  The first argument is
`none` in ordinary scanning and `some acc` directly after a `')'`, where
`acc` holds the whitespace seen so far (reversed). -/
def fixIJ : Option (List Char) → List Char → List Char
  | none, [] => []
  | none, c :: cs =>
    if c = ')' then ')' :: fixIJ (some []) cs else c :: fixIJ none cs
  | some acc, [] => acc.reverse
  | some _, '!' :: '[' :: cs2 => '\n' :: '\n' :: '!' :: '[' :: fixIJ none cs2
  | some acc, c :: cs =>
    if pyIsSpace c then fixIJ (some (c :: acc)) cs
    else if c = ')' then acc.reverse ++ ')' :: fixIJ (some []) cs
    else acc.reverse ++ c :: fixIJ none cs

/-- `re.sub(r"\)\s*!\[", ")\n\n![", s)`. -/
def fixImgJoin (s : List Char) : List Char := fixIJ none s

/-- One iteration of the placeholder loop in `_inject_images`. -/
def injectStep (paths : List (List Char)) (res : List Char) (i : Nat) : List Char :=
  if i ≤ paths.length then strReplace res (tok i) (paths.getD (i - 1) [])
  else strReplace res (tok i) []

/-- `ContentBuilder._inject_images(text, image_web_paths)`. -/
def inject_images (text : List Char) (paths : List (List Char)) : List Char :=
  fixImgJoin ([1, 2, 3, 4].foldl (injectStep paths) text)

/-- `pat` occurs as a contiguous substring of `s`. -/
def occursIn (pat s : List Char) : Prop := ∃ a b, s = a ++ (pat ++ b)

theorem not_occursIn_of_brFree {pat s : List Char} (hpat : '[' ∈ pat)
    (hs : brFree s) : ¬ occursIn pat s := by
  rintro ⟨a, b, rfl⟩
  exact hs '[' (by simp [hpat]) rfl

theorem fixIJ_brFree_aux :
    ∀ (n : Nat) (s : List Char), s.length ≤ n →
      ∀ (mode : Option (List Char)), brFree s →
        (∀ acc, mode = some acc → brFree acc) → brFree (fixIJ mode s) := by
  intro n
  induction n with
  | zero =>
    intro s hlen mode hs hm
    have hnil : s = [] := by
      cases s with
      | nil => rfl
      | cons a b => simp at hlen
    subst hnil
    cases mode with
    | none => intro c hc; simp [fixIJ] at hc
    | some acc =>
      intro c hc
      rw [fixIJ.eq_3] at hc
      exact hm acc rfl c (List.mem_reverse.1 hc)
  | succ n ih =>
    intro s hlen mode hs hm
    cases s with
    | nil =>
      cases mode with
      | none => intro c hc; simp [fixIJ] at hc
      | some acc =>
        intro c hc
        rw [fixIJ.eq_3] at hc
        exact hm acc rfl c (List.mem_reverse.1 hc)
    | cons c cs =>
      have hlcs : cs.length ≤ n := by simpa using hlen
      have hc : c ≠ '[' := hs c (by simp)
      have hcs : brFree cs := fun d hd => hs d (by simp [hd])
      have hmnil : ∀ acc, (some ([] : List Char)) = some acc → brFree acc := by
        rintro a ⟨rfl⟩; intro x hx; simp at hx
      have hmnone : ∀ acc, (none : Option (List Char)) = some acc → brFree acc := by
        rintro a ⟨⟩
      cases mode with
      | none =>
        rw [fixIJ.eq_2]
        by_cases hpar : c = ')'
        · rw [if_pos hpar]
          intro d hd
          rcases List.mem_cons.1 hd with h | h
          · rw [h]; simp
          · exact ih cs hlcs (some []) hcs hmnil d h
        · rw [if_neg hpar]
          intro d hd
          rcases List.mem_cons.1 hd with h | h
          · rw [h]; exact hc
          · exact ih cs hlcs none hcs hmnone d h
      | some acc =>
        have hacc : brFree acc := hm acc rfl
        have haccr : brFree acc.reverse := fun d hd => hacc d (List.mem_reverse.1 hd)
        have hguard : ∀ cs2, c = '!' → cs = '[' :: cs2 → False := by
          intro cs2 _ hcs2
          exact hcs '[' (by simp [hcs2]) rfl
        rw [fixIJ.eq_5 acc c cs hguard]
        by_cases hsp : pyIsSpace c = true
        · rw [if_pos hsp]
          refine ih cs hlcs (some (c :: acc)) hcs ?_
          rintro a ⟨rfl⟩
          intro x hx
          rcases List.mem_cons.1 hx with h | h
          · rw [h]; exact hc
          · exact hacc x h
        · rw [if_neg hsp]
          by_cases hpar : c = ')'
          · rw [if_pos hpar]
            intro d hd
            rcases List.mem_append.1 hd with h | h
            · exact haccr d h
            · rcases List.mem_cons.1 h with h' | h'
              · rw [h']; simp
              · exact ih cs hlcs (some []) hcs hmnil d h'
          · rw [if_neg hpar]
            intro d hd
            rcases List.mem_append.1 hd with h | h
            · exact haccr d h
            · rcases List.mem_cons.1 h with h' | h'
              · rw [h']; exact hc
              · exact ih cs hlcs none hcs hmnone d h'

theorem fixImgJoin_brFree {s : List Char} (hs : brFree s) : brFree (fixImgJoin s) :=
  fixIJ_brFree_aux s.length s le_rfl none hs (by rintro a ⟨⟩)

theorem tok_head (k : Nat) : ∃ p', tok k = '[' :: p' := ⟨_, rfl⟩

theorem tok_ne_nil (k : Nat) : tok k ≠ [] := by
  obtain ⟨p', hp⟩ := tok_head k
  rw [hp]
  simp

theorem br_mem_tok (k : Nat) : '[' ∈ tok k := by
  obtain ⟨p', hp⟩ := tok_head k
  rw [hp]
  simp

theorem tok_transparent (k j : Nat)
    (h : ∀ i, i < (tok j).length → mism (tok k) ((tok j).drop i) = true) :
    Transparent (tok k) (tok j) :=
  transparent_of_mism h

theorem brFree_nil : brFree [] := by
  intro c hc
  simp at hc

/-- The replacement that iteration `i` of the `_inject_images` loop uses:
the `(i-1)`-th supplied path when `i ≤ len(image_web_paths)`, else `""`. -/
def rPath (paths : List (List Char)) (i : Nat) : List Char :=
  if i ≤ paths.length then paths.getD (i - 1) [] else []

theorem injectStep_eq (paths : List (List Char)) (res : List Char) (i : Nat) :
    injectStep paths res i = strReplace res (tok i) (rPath paths i) := by
  unfold injectStep rPath
  by_cases h : i ≤ paths.length <;> simp [h]

theorem getD_mem_or_nil :
    ∀ (l : List (List Char)) (n : Nat), l.getD n [] ∈ l ∨ l.getD n [] = [] := by
  intro l
  induction l with
  | nil => intro n; right; simp [List.getD]
  | cons x xs ih =>
    intro n
    cases n with
    | zero => left; simp [List.getD]
    | succ m =>
      rcases ih m with h | h
      · left
        simpa [List.getD] using Or.inr (by simpa [List.getD] using h)
      · right
        simpa [List.getD] using h

theorem rPath_brFree {paths : List (List Char)} (hp : ∀ p ∈ paths, brFree p)
    (i : Nat) : brFree (rPath paths i) := by
  unfold rPath
  by_cases h : i ≤ paths.length
  · rw [if_pos h]
    rcases getD_mem_or_nil paths (i - 1) with hm | hm
    · exact hp _ hm
    · rw [hm]; exact brFree_nil
  · rw [if_neg h]; exact brFree_nil

/-- Core effect of the four sequential `str.replace` calls on a draft in
which the four tokens occur once each, in order, separated by bracket-free
segments, with bracket-free replacements. -/
theorem subst4 (s0 s1 s2 s3 s4 r1 r2 r3 r4 : List Char)
    (h0 : brFree s0) (h1 : brFree s1) (h2 : brFree s2) (h3 : brFree s3)
    (h4 : brFree s4)
    (g1 : brFree r1) (g2 : brFree r2) (g3 : brFree r3) (g4 : brFree r4) :
    strReplace (strReplace (strReplace (strReplace
        (s0 ++ (tok 1 ++ (s1 ++ (tok 2 ++ (s2 ++ (tok 3 ++ (s3 ++ (tok 4 ++ s4))))))))
        (tok 1) r1) (tok 2) r2) (tok 3) r3) (tok 4) r4
      = s0 ++ (r1 ++ (s1 ++ (r2 ++ (s2 ++ (r3 ++ (s3 ++ (r4 ++ s4))))))) := by
  have tb : ∀ k (q : List Char), brFree q → Transparent (tok k) q := fun k q hq =>
    transparent_of_brFree (tok_head k) hq
  have st1 : strReplace
      (s0 ++ (tok 1 ++ (s1 ++ (tok 2 ++ (s2 ++ (tok 3 ++ (s3 ++ (tok 4 ++ s4))))))))
      (tok 1) r1
      = s0 ++ (r1 ++ (s1 ++ (tok 2 ++ (s2 ++ (tok 3 ++ (s3 ++ (tok 4 ++ s4))))))) :=
    strReplace_once r1 (tb 1 s0 h0) (tok_ne_nil 1)
      (transparent_append (tb 1 s1 h1) (transparent_append (tok_transparent 1 2 (by decide))
        (transparent_append (tb 1 s2 h2) (transparent_append (tok_transparent 1 3 (by decide))
          (transparent_append (tb 1 s3 h3) (transparent_append (tok_transparent 1 4 (by decide))
            (tb 1 s4 h4)))))))
  have e2 : s0 ++ (r1 ++ (s1 ++ (tok 2 ++ (s2 ++ (tok 3 ++ (s3 ++ (tok 4 ++ s4)))))))
      = (s0 ++ (r1 ++ s1)) ++ (tok 2 ++ (s2 ++ (tok 3 ++ (s3 ++ (tok 4 ++ s4))))) := by
    simp [List.append_assoc]
  have st2 : strReplace
      ((s0 ++ (r1 ++ s1)) ++ (tok 2 ++ (s2 ++ (tok 3 ++ (s3 ++ (tok 4 ++ s4))))))
      (tok 2) r2
      = (s0 ++ (r1 ++ s1)) ++ (r2 ++ (s2 ++ (tok 3 ++ (s3 ++ (tok 4 ++ s4))))) :=
    strReplace_once r2
      (transparent_append (tb 2 s0 h0) (transparent_append (tb 2 r1 g1) (tb 2 s1 h1)))
      (tok_ne_nil 2)
      (transparent_append (tb 2 s2 h2) (transparent_append (tok_transparent 2 3 (by decide))
        (transparent_append (tb 2 s3 h3) (transparent_append (tok_transparent 2 4 (by decide))
          (tb 2 s4 h4)))))
  have e3 : (s0 ++ (r1 ++ s1)) ++ (r2 ++ (s2 ++ (tok 3 ++ (s3 ++ (tok 4 ++ s4)))))
      = ((s0 ++ (r1 ++ s1)) ++ (r2 ++ s2)) ++ (tok 3 ++ (s3 ++ (tok 4 ++ s4))) := by
    simp [List.append_assoc]
  have st3 : strReplace
      (((s0 ++ (r1 ++ s1)) ++ (r2 ++ s2)) ++ (tok 3 ++ (s3 ++ (tok 4 ++ s4))))
      (tok 3) r3
      = ((s0 ++ (r1 ++ s1)) ++ (r2 ++ s2)) ++ (r3 ++ (s3 ++ (tok 4 ++ s4))) :=
    strReplace_once r3
      (transparent_append
        (transparent_append (tb 3 s0 h0) (transparent_append (tb 3 r1 g1) (tb 3 s1 h1)))
        (transparent_append (tb 3 r2 g2) (tb 3 s2 h2)))
      (tok_ne_nil 3)
      (transparent_append (tb 3 s3 h3) (transparent_append (tok_transparent 3 4 (by decide))
        (tb 3 s4 h4)))
  have e4 : ((s0 ++ (r1 ++ s1)) ++ (r2 ++ s2)) ++ (r3 ++ (s3 ++ (tok 4 ++ s4)))
      = (((s0 ++ (r1 ++ s1)) ++ (r2 ++ s2)) ++ (r3 ++ s3)) ++ (tok 4 ++ s4) := by
    simp [List.append_assoc]
  have st4 : strReplace
      ((((s0 ++ (r1 ++ s1)) ++ (r2 ++ s2)) ++ (r3 ++ s3)) ++ (tok 4 ++ s4))
      (tok 4) r4
      = (((s0 ++ (r1 ++ s1)) ++ (r2 ++ s2)) ++ (r3 ++ s3)) ++ (r4 ++ s4) :=
    strReplace_once r4
      (transparent_append
        (transparent_append
          (transparent_append (tb 4 s0 h0) (transparent_append (tb 4 r1 g1) (tb 4 s1 h1)))
          (transparent_append (tb 4 r2 g2) (tb 4 s2 h2)))
        (transparent_append (tb 4 r3 g3) (tb 4 s3 h3)))
      (tok_ne_nil 4)
      (tb 4 s4 h4)
  rw [st1, e2, st2, e3, st3, e4, st4]
  simp [List.append_assoc]

/-- Substitution behaviour of `_inject_images` on a well-formed draft:
tokens 1..4 occur once each in order, the surrounding segments and all
supplied paths contain no `'['`. -/
theorem inject_images_subst (s0 s1 s2 s3 s4 : List Char) (paths : List (List Char))
    (h0 : brFree s0) (h1 : brFree s1) (h2 : brFree s2) (h3 : brFree s3)
    (h4 : brFree s4) (hp : ∀ p ∈ paths, brFree p) :
    inject_images
        (s0 ++ (tok 1 ++ (s1 ++ (tok 2 ++ (s2 ++ (tok 3 ++ (s3 ++ (tok 4 ++ s4))))))))
        paths
      = fixImgJoin
          (s0 ++ (rPath paths 1 ++ (s1 ++ (rPath paths 2 ++
            (s2 ++ (rPath paths 3 ++ (s3 ++ (rPath paths 4 ++ s4)))))))) := by
  unfold inject_images
  simp only [List.foldl, injectStep_eq]
  rw [subst4 s0 s1 s2 s3 s4 (rPath paths 1) (rPath paths 2) (rPath paths 3) (rPath paths 4)
    h0 h1 h2 h3 h4 (rPath_brFree hp 1) (rPath_brFree hp 2) (rPath_brFree hp 3)
    (rPath_brFree hp 4)]

theorem inject_images_no_token_aux (s0 s1 s2 s3 s4 : List Char) (paths : List (List Char))
    (h0 : brFree s0) (h1 : brFree s1) (h2 : brFree s2) (h3 : brFree s3)
    (h4 : brFree s4) (hp : ∀ p ∈ paths, brFree p) (k : Nat) :
    ¬ occursIn (tok k)
      (inject_images
        (s0 ++ (tok 1 ++ (s1 ++ (tok 2 ++ (s2 ++ (tok 3 ++ (s3 ++ (tok 4 ++ s4))))))))
        paths) := by
  rw [inject_images_subst s0 s1 s2 s3 s4 paths h0 h1 h2 h3 h4 hp]
  refine not_occursIn_of_brFree (br_mem_tok k) (fixImgJoin_brFree ?_)
  refine brFree_append h0 (brFree_append (rPath_brFree hp 1) (brFree_append h1
    (brFree_append (rPath_brFree hp 2) (brFree_append h2 (brFree_append (rPath_brFree hp 3)
      (brFree_append h3 (brFree_append (rPath_brFree hp 4) h4)))))))

/-!
### `ContentBuilder._make_slug`, `_extract_title` and `build`
(content_builder.py lines 25-35 and 120-149)
-/

/-- A Python exception, reduced to its type name and message. -/
structure PyErr where
  ty : String
  msg : String
deriving DecidableEq, Repr

/-- The `IndexError` raised by `[0]` on an empty list. -/
def indexError : PyErr := ⟨"IndexError", "list index out of range"⟩

/-- Characters kept by the regex class `[0-9A-Za-z가-힣\-]` of `_make_slug`. -/
def isSlugChar (c : Char) : Bool :=
  ('0' ≤ c && c ≤ '9') || ('A' ≤ c && c ≤ 'Z') || ('a' ≤ c && c ≤ 'z') ||
    ('가' ≤ c && c ≤ '힣') || c == '-'

/-- Replace each maximal run of characters satisfying `p` by the single
character `rep` (models `re.sub(class+, rep, s)`); `inRun` records whether
the previous character was part of a run. -/
def collapseRunsAux (p : Char → Bool) (rep : Char) : Bool → List Char → List Char
  | _, [] => []
  | inRun, c :: cs =>
    if p c then
      (if inRun then collapseRunsAux p rep true cs
       else rep :: collapseRunsAux p rep true cs)
    else c :: collapseRunsAux p rep false cs

/-- `ContentBuilder._make_slug(title)`: strip, collapse whitespace runs to
hyphens, delete characters outside the allowed class, strip hyphens, then
truncate to 50 characters with fallback `"post"`. -/
def make_slug (title : List Char) : List Char :=
  let t1 := pyStrip title
  let t2 := collapseRunsAux pyIsSpace '-' false t1
  let t3 := t2.filter isSlugChar
  let t4 := dropTrail (fun c => c == '-') (t3.dropWhile (fun c => c == '-'))
  if t4 = [] then "post".toList else t4.take 50

/-- `drive_manager.DriveImage`. -/
structure DriveImage where
  file_id : String
  name : String
  mime_type : String
  modified_time : String
  local_path : Option String := none
deriving DecidableEq, Repr

/-- The disambiguating suffix chosen by `ContentBuilder.build`:
`str(images[0].file_id)[:6]` when a first image with a truthy `file_id`
exists, else the literal `"post"`. -/
def build_suffix (images : List DriveImage) : List Char :=
  match images with
  | [] => "post".toList
  | img :: _ =>
    if img.file_id = "" then "post".toList else img.file_id.toList.take 6

/-- The full slug produced by `ContentBuilder.build`:
`f"{base_slug}-{suffix}"` with `base_slug = _make_slug(title) or "post"`. -/
def build_slug (title : List Char) (images : List DriveImage) : List Char :=
  let base := make_slug title
  let base := if base = [] then "post".toList else base
  base ++ ('-' :: build_suffix images)

/-- Worker for Python `str.splitlines` (newline conventions `\n`, `\r`,
`\r\n`); `cur` holds the current line reversed. -/
def slGo (cur : List Char) : List Char → List (List Char)
  | [] => [cur.reverse]
  | ['\r', '\n'] => [cur.reverse]
  | ['\r'] => [cur.reverse]
  | ['\n'] => [cur.reverse]
  | '\r' :: '\n' :: c :: rest => cur.reverse :: slGo [] (c :: rest)
  | '\r' :: c :: rest => cur.reverse :: slGo [] (c :: rest)
  | '\n' :: c :: rest => cur.reverse :: slGo [] (c :: rest)
  | c :: rest => slGo (c :: cur) rest

/-- Python `str.splitlines()`: empty string gives `[]`, a trailing line
break does not create an empty final line. -/
def splitlines : List Char → List (List Char)
  | [] => []
  | c :: cs => slGo [] (c :: cs)

/-- `ContentBuilder._extract_title(post_text)`; the `[0]` subscript is
modelled by an explicit `IndexError` when `splitlines` is empty. -/
def extract_title (post_text : List Char) : Except PyErr (List Char) :=
  if post_text = [] then .ok "Untitled".toList
  else
    match splitlines (pyStrip post_text) with
    | [] => .error indexError
    | l :: _ =>
      let r := pyStrip l
      .ok (if r = [] then "Untitled".toList else r)

/-- Characters kept unchanged by `_copy_images`'s filename sanitiser
(regex class `[0-9A-Za-z._-]`). -/
def isSafeNameChar (c : Char) : Bool :=
  ('0' ≤ c && c ≤ '9') || ('A' ≤ c && c ≤ 'Z') || ('a' ≤ c && c ≤ 'z') ||
    c == '.' || c == '_' || c == '-'

/-- `re.sub(r"[^0-9A-Za-z._-]+", "_", name)` from `_copy_images`. -/
def safe_img_name (name : List Char) : List Char :=
  collapseRunsAux (fun c => !isSafeNameChar c) '_' false name

/-- `BuildResult` of content_builder.py. -/
structure BuildResultM where
  post_path : String
  post_slug : String
  image_paths : List String
deriving DecidableEq, Repr

/-- `ContentBuilder.build(captions_json, post_text, images)`: title
extraction, slug derivation and output naming.  Directory creation, image
copying and the markdown body written to disk are file-system effects and
are abstracted away; `today` stands for `_today_prefix()` and the posts
directory prefix is dropped from `post_path`. -/
def buildPost (today : List Char) (post_text : List Char) (images : List DriveImage) :
    Except PyErr BuildResultM :=
  match extract_title post_text with
  | .error e => .error e
  | .ok title =>
    let slug := build_slug title images
    let copied := images.map (fun img => (safe_img_name img.name.toList).asString)
    let filename := today ++ ('-' :: slug) ++ ".md".toList
    .ok { post_path := filename.asString, post_slug := slug.asString,
          image_paths := copied }

theorem mem_dropTrail {p : Char → Bool} {l : List Char} {c : Char}
    (h : c ∈ dropTrail p l) : c ∈ l := by
  unfold dropTrail at h
  rw [List.mem_reverse] at h
  have := (List.dropWhile_sublist p (l := l.reverse)).subset h
  exact List.mem_reverse.1 this

theorem make_slug_chars (t : List Char) :
    ∀ c ∈ make_slug t, isSlugChar c = true := by
  unfold make_slug
  by_cases h : dropTrail (fun c => c == '-')
      ((collapseRunsAux pyIsSpace '-' false (pyStrip t)).filter isSlugChar
        |>.dropWhile (fun c => c == '-')) = []
  · rw [if_pos h]
    intro c hc
    fin_cases hc <;> decide
  · rw [if_neg h]
    intro c hc
    have h1 := List.take_subset 50 _ hc
    have h2 := mem_dropTrail h1
    have h3 := (List.dropWhile_sublist (fun c => c == '-')
      (l := (collapseRunsAux pyIsSpace '-' false (pyStrip t)).filter isSlugChar)).subset h2
    exact (List.mem_filter.1 h3).2

theorem make_slug_length (t : List Char) : (make_slug t).length ≤ 50 := by
  unfold make_slug
  by_cases h : dropTrail (fun c => c == '-')
      ((collapseRunsAux pyIsSpace '-' false (pyStrip t)).filter isSlugChar
        |>.dropWhile (fun c => c == '-')) = []
  · rw [if_pos h]; decide
  · rw [if_neg h]
    simpa using List.length_take_le 50 _

theorem make_slug_ne_nil (t : List Char) : make_slug t ≠ [] := by
  unfold make_slug
  by_cases h : dropTrail (fun c => c == '-')
      ((collapseRunsAux pyIsSpace '-' false (pyStrip t)).filter isSlugChar
        |>.dropWhile (fun c => c == '-')) = []
  · rw [if_pos h]; decide
  · rw [if_neg h]
    intro hcontra
    rcases List.eq_nil_or_concat (dropTrail (fun c => c == '-')
      ((collapseRunsAux pyIsSpace '-' false (pyStrip t)).filter isSlugChar
        |>.dropWhile (fun c => c == '-'))) with h' | ⟨l', a, h'⟩
    · exact h h'
    · rw [h'] at hcontra
      cases l' with
      | nil => simp at hcontra
      | cons x xs => simp at hcontra

theorem make_slug_of_whitespace {t : List Char} (h : ∀ c ∈ t, pyIsSpace c = true) :
    make_slug t = "post".toList := by
  have hstrip : pyStrip t = [] := by
    unfold pyStrip
    rw [List.dropWhile_eq_nil_iff.2 h]
    rfl
  unfold make_slug
  rw [hstrip]
  rfl

theorem build_slug_eq (t : List Char) (images : List DriveImage) :
    build_slug t images = make_slug t ++ ('-' :: build_suffix images) := by
  show (let base := make_slug t;
    let base2 := if base = [] then "post".toList else base;
    base2 ++ ('-' :: build_suffix images)) = _
  simp only
  rw [if_neg (make_slug_ne_nil t)]

theorem build_suffix_length (images : List DriveImage) :
    (build_suffix images).length ≤ 6 := by
  cases images with
  | nil => decide
  | cons img rest =>
    simp only [build_suffix]
    by_cases h : img.file_id = ""
    · rw [if_pos h]; decide
    · rw [if_neg h]
      simpa using List.length_take_le 6 _

theorem build_slug_length (t : List Char) (images : List DriveImage) :
    (build_slug t images).length ≤ 57 := by
  rw [build_slug_eq]
  have h1 := make_slug_length t
  have h2 := build_suffix_length images
  simp only [List.length_append, List.length_cons]
  omega

theorem build_slug_ne_nil (t : List Char) (images : List DriveImage) :
    build_slug t images ≠ [] := by
  rw [build_slug_eq]
  intro h
  have := make_slug_ne_nil t
  cases hms : make_slug t with
  | nil => exact this hms
  | cons x xs => rw [hms] at h; simp at h

theorem build_slug_chars (t : List Char) (images : List DriveImage)
    (hs : ∀ c ∈ build_suffix images, isSlugChar c = true) :
    ∀ c ∈ build_slug t images, isSlugChar c = true := by
  rw [build_slug_eq]
  intro c hc
  rcases List.mem_append.1 hc with h | h
  · exact make_slug_chars t c h
  · rcases List.mem_cons.1 h with h' | h'
    · rw [h']; decide
    · exact hs c h'

/-!
### `AIProcessor._gemini_generate_text` (ai_processor.py lines 70-130)

The HTTP exchange is modelled by a sequence `resp : Nat → GemResponse`
(the response the server would give to the request of attempt `i`), and
the two `random.uniform` draws by sequences `jr` (429 jitter, drawn from
`[0, 0.8]`) and `jt` (truncation jitter, drawn from `[0, 0.6]`).
-/

/-- One element of `data["candidates"]`: the `"text"` fields of
`content.parts` (absent key modelled as `none`) and `finishReason`. -/
structure GemCandidate where
  parts : List (Option String)
  finishReason : Option String
deriving DecidableEq, Repr

/-- One HTTP response from the generateContent endpoint: `status_code`,
`r.text` (raw body, used in error messages), the parsed candidates, and
`json.dumps(data, ensure_ascii=False)` (used in the unexpected-response
message). -/
structure GemResponse where
  status : Nat
  bodyText : String
  candidates : List GemCandidate
  dumped : String
deriving DecidableEq, Repr

/-- The `texts` list collected by `_gemini_generate_text`: every truthy
`p.get("text")` of the first candidate's parts, in order. -/
def textParts (r : GemResponse) : List String :=
  (match r.candidates with
   | [] => []
   | c :: _ => c.parts).filterMap
    (fun p? => match p? with
      | some t => if t = "" then none else some t
      | none => none)

/-- `cand0.get("finishReason")`. -/
def finishOf (r : GemResponse) : Option String :=
  match r.candidates with
  | [] => none
  | c :: _ => c.finishReason

/-- The errors `_gemini_generate_text` can raise. -/
inductive GenError where
  | apiError (status : Nat) (body : String)
  | unexpected (excerpt : String)
  | failedAfterRetries
deriving DecidableEq, Repr

/-- Outcome of the whole call: result or error, the number of HTTP
requests issued, and the sleeps performed (in seconds, in order). -/
structure TextGenResult where
  outcome : Except GenError String
  requests : Nat
  waits : List ℚ
deriving Repr

/-- The 429 backoff `(1.2 * (2 ** attempt)) + random.uniform(0.0, 0.8)`. -/
def rateWait (attempt : Nat) (j : ℚ) : ℚ := 6/5 * 2 ^ attempt + j

/-- The truncation backoff `(1.0 * (2 ** attempt)) + random.uniform(0.0, 0.6)`. -/
def truncWait (attempt : Nat) (j : ℚ) : ℚ := 1 * 2 ^ attempt + j

/-- The `for attempt in range(4)` loop of `_gemini_generate_text`; `fuel`
is the number of loop iterations left, falling out of the loop raises the
terminal retries-exhausted error. -/
def genTextGo (resp : Nat → GemResponse) (jr jt : Nat → ℚ) :
    Nat → Nat → Nat → List ℚ → TextGenResult
  | 0, _, reqs, waits => ⟨.error .failedAfterRetries, reqs, waits⟩
  | fuel + 1, attempt, reqs, waits =>
    let r := resp attempt
    if r.status = 429 then
      genTextGo resp jr jt fuel (attempt + 1) (reqs + 1)
        (waits ++ [rateWait attempt (jr attempt)])
    else if r.status ≠ 200 then
      ⟨.error (.apiError r.status r.bodyText), reqs + 1, waits⟩
    else if textParts r ≠ [] then
      ⟨.ok (pyStripS (String.intercalate "\n" (textParts r))), reqs + 1, waits⟩
    else if finishOf r = some "MAX_TOKENS" then
      genTextGo resp jr jt fuel (attempt + 1) (reqs + 1)
        (waits ++ [truncWait attempt (jt attempt)])
    else
      ⟨.error (.unexpected (r.dumped.take 800)), reqs + 1, waits⟩

/-- `AIProcessor._gemini_generate_text` (transport abstracted). -/
def gemini_generate_text (resp : Nat → GemResponse) (jr jt : Nat → ℚ) :
    TextGenResult :=
  genTextGo resp jr jt 4 0 0 []

theorem genTextGo_requests_le (resp : Nat → GemResponse) (jr jt : Nat → ℚ) :
    ∀ (fuel attempt reqs : Nat) (waits : List ℚ),
      (genTextGo resp jr jt fuel attempt reqs waits).requests ≤ reqs + fuel := by
  intro fuel
  induction fuel with
  | zero => intro attempt reqs waits; simp [genTextGo]
  | succ n ih =>
    intro attempt reqs waits
    simp only [genTextGo]
    by_cases h429 : (resp attempt).status = 429
    · rw [if_pos h429]
      calc (genTextGo resp jr jt n (attempt + 1) (reqs + 1)
              (waits ++ [rateWait attempt (jr attempt)])).requests
          ≤ (reqs + 1) + n := ih _ _ _
        _ ≤ reqs + (n + 1) := by omega
    · rw [if_neg h429]
      by_cases h200 : (resp attempt).status ≠ 200
      · rw [if_pos h200]; simp
      · rw [if_neg h200]
        by_cases htxt : textParts (resp attempt) ≠ []
        · rw [if_pos htxt]; simp
        · rw [if_neg htxt]
          by_cases hfin : finishOf (resp attempt) = some "MAX_TOKENS"
          · rw [if_pos hfin]
            calc (genTextGo resp jr jt n (attempt + 1) (reqs + 1)
                    (waits ++ [truncWait attempt (jt attempt)])).requests
                ≤ (reqs + 1) + n := ih _ _ _
              _ ≤ reqs + (n + 1) := by omega
          · rw [if_neg hfin]; simp

/-!
### `AIProcessor._gemini_generate_captions_json` (ai_processor.py lines 135-195)
-/

/-- The JSON values `json.loads` can produce. -/
inductive PyJson where
  | null
  | bool (b : Bool)
  | num (q : ℚ)
  | str (s : String)
  | arr (xs : List PyJson)
  | obj (kvs : List (String × PyJson))

/-- The errors `_gemini_generate_captions_json` can raise. -/
inductive CapError where
  | apiError (status : Nat) (body : String)
  | unexpected (excerpt : String)
  | parseFailed (excerpt : String)
deriving DecidableEq, Repr

/-- `data["candidates"][0]["content"]["parts"][0]["text"]`, with every
lookup failure (the `except` around it) collapsed to `none`. -/
def firstPartText (r : GemResponse) : Option String :=
  match r.candidates with
  | [] => none
  | c :: _ =>
    match c.parts with
    | [] => none
    | p :: _ => p

/-- `text.strip().replace("```json", "").replace("```", "").strip()`. -/
def cleanFence (text : List Char) : List Char :=
  pyStrip (strReplace (strReplace (pyStrip text) "```json".toList []) "```".toList [])

/-- `AIProcessor._gemini_generate_captions_json` after the single HTTP
request, parameterised by `parse`, the behaviour of `json.loads` (an
external library function: `some v` when the text is valid JSON with
value `v`, `none` when parsing raises). -/
def gemCaptions (parse : String → Option PyJson) (r : GemResponse) :
    Except CapError PyJson :=
  if r.status ≠ 200 then .error (.apiError r.status r.bodyText)
  else
    match firstPartText r with
    | none => .error (.unexpected (r.dumped.take 800))
    | some text =>
      let cleaned := cleanFence text.toList
      match parse cleaned.asString with
      | some v => .ok v
      | none => .error (.parseFailed (cleaned.take 800).asString)

/-- The captions call issues exactly one HTTP request (there is no loop in
`_gemini_generate_captions_json`): only `resp 0` is consulted and the
request count is 1. -/
def gemCaptionsCall (parse : String → Option PyJson) (resp : Nat → GemResponse) :
    Except CapError PyJson × Nat :=
  (gemCaptions parse (resp 0), 1)

/-- The `{"images": [...]}` shape that the spec's caption contract
requires (stated from the spec, for comparison with the code). -/
def hasImagesShape (j : PyJson) : Bool :=
  match j with
  | .obj kvs => kvs.any (fun kv =>
      kv.1 == "images" && (match kv.2 with | .arr _ => true | _ => false))
  | _ => false

/-!
### `DriveManager.pick_new_images` (drive_manager.py lines 58-66) and the
processed-set tracker
-/

/-- Modelled from the spec: `app.state_client.StateClient` is not under
src/ (only its callers are).  Per spec §4.3 it persists
`(item_id, post_slug)` records; `is_processed(id)` is true exactly when a
record for `id` exists, and `mark_processed(id, label)` adds one. -/
structure StateClientState where
  processed : List (String × String)
deriving DecidableEq, Repr

/-- Modelled from the spec: `StateClient.is_processed(file_id)`. -/
def is_processed (st : StateClientState) (id : String) : Bool :=
  st.processed.any (fun r => r.1 == id)

/-- Modelled from the spec: `StateClient.mark_processed(file_id, slug)`. -/
def mark_processed (st : StateClientState) (id slug : String) : StateClientState :=
  ⟨(id, slug) :: st.processed⟩

/-- The scan loop of `pick_new_images`: append unprocessed items, break as
soon as `len(new_images) >= batch_size` (checked after each item). -/
def pickNewAux (isP : String → Bool) (batch : Nat) (acc : List DriveImage) :
    List DriveImage → List DriveImage
  | [] => acc
  | img :: rest =>
    let acc2 := if isP img.file_id then acc else acc ++ [img]
    if batch ≤ acc2.length then acc2 else pickNewAux isP batch acc2 rest

/-- `DriveManager.pick_new_images(state_client)` applied to the (already
date-sorted) folder listing, with the tracker abstracted to its
`is_processed` predicate. -/
def pick_new_images (isP : String → Bool) (batch : Nat)
    (listing : List DriveImage) : List DriveImage :=
  pickNewAux isP batch [] listing

theorem pickNewAux_unprocessed (isP : String → Bool) (batch : Nat) :
    ∀ (l acc : List DriveImage), (∀ i ∈ acc, isP i.file_id = false) →
      ∀ i ∈ pickNewAux isP batch acc l, isP i.file_id = false := by
  intro l
  induction l with
  | nil => intro acc hacc i hi; exact hacc i hi
  | cons img rest ih =>
    intro acc hacc i hi
    simp only [pickNewAux] at hi
    by_cases hp : isP img.file_id
    · rw [if_pos hp] at hi
      by_cases hb : batch ≤ acc.length
      · rw [if_pos hb] at hi; exact hacc i hi
      · rw [if_neg hb] at hi; exact ih acc hacc i hi
    · rw [if_neg hp] at hi
      have hacc2 : ∀ j ∈ acc ++ [img], isP j.file_id = false := by
        intro j hj
        rcases List.mem_append.1 hj with h | h
        · exact hacc j h
        · rcases List.mem_singleton.1 h with rfl
          simpa using hp
      by_cases hb : batch ≤ (acc ++ [img]).length
      · rw [if_pos hb] at hi; exact hacc2 i hi
      · rw [if_neg hb] at hi; exact ih _ hacc2 i hi

theorem pickNewAux_length (isP : String → Bool) (batch : Nat) :
    ∀ (l acc : List DriveImage), acc.length < batch →
      (pickNewAux isP batch acc l).length ≤ batch := by
  intro l
  induction l with
  | nil => intro acc hacc; simpa [pickNewAux] using Nat.le_of_lt hacc
  | cons img rest ih =>
    intro acc hacc
    simp only [pickNewAux]
    by_cases hp : isP img.file_id
    · rw [if_pos hp]
      by_cases hb : batch ≤ acc.length
      · rw [if_pos hb]; exact Nat.le_of_lt hacc
      · rw [if_neg hb]; exact ih acc hacc
    · rw [if_neg hp]
      by_cases hb : batch ≤ (acc ++ [img]).length
      · rw [if_pos hb]
        have : (acc ++ [img]).length = acc.length + 1 := by simp
        omega
      · rw [if_neg hb]
        exact ih _ (by omega)

theorem pickNewAux_stops (isP : String → Bool) (batch : Nat) :
    ∀ (l extra acc : List DriveImage), acc.length < batch →
      batch ≤ (pickNewAux isP batch acc l).length →
      pickNewAux isP batch acc (l ++ extra) = pickNewAux isP batch acc l := by
  intro l
  induction l with
  | nil =>
    intro extra acc hacc hfull
    simp only [pickNewAux] at hfull
    omega
  | cons img rest ih =>
    intro extra acc hacc hfull
    simp only [pickNewAux, List.cons_append, List.append_eq] at hfull ⊢
    by_cases hp : isP img.file_id
    · simp only [if_pos hp] at hfull ⊢
      by_cases hb : batch ≤ acc.length
      · simp only [if_pos hb]
      · simp only [if_neg hb] at hfull ⊢
        exact ih extra acc hacc hfull
    · simp only [if_neg hp] at hfull ⊢
      by_cases hb : batch ≤ (acc ++ [img]).length
      · simp only [if_pos hb]
      · simp only [if_neg hb] at hfull ⊢
        refine ih extra _ ?_ hfull
        simp only [List.length_append, List.length_cons, List.length_nil] at hb ⊢
        omega

/-!
### `Pipeline` (pipeline.py)
-/

/-- `f"{type(e).__name__}: {e}"`. -/
def pyErrString (e : PyErr) : String := e.ty ++ ": " ++ e.msg

/-- `pipeline.PipelineResult`. -/
structure PipelineResult where
  ok : Bool
  message : String
  processed_count : Nat := 0
  post_path : Option String := none
  post_slug : Option String := none
  errors : Option (List String) := none
deriving DecidableEq, Repr

/-- `pipeline.Pipeline._update_state`: mark every downloaded image
processed, counting successes and collecting (logging) the ids whose
`mark_processed` raised.  `markOk` abstracts which per-item calls
succeed. -/
def update_state (markOk : String → Bool) (downloaded : List DriveImage) :
    Nat × List String :=
  downloaded.foldl
    (fun acc img =>
      if markOk img.file_id then (acc.1 + 1, acc.2) else (acc.1, acc.2 ++ [img.file_id]))
    (0, [])

/-- `pipeline.Pipeline._update_posts_metadata`: the pure manifest insert
(`posts.insert(0, new_entry)` guarded by the `file`-dedup check). -/
structure PostEntry where
  title : String
  file : String
  date : String
  tags : List String
deriving DecidableEq, Repr

def update_posts_metadata (posts : List PostEntry) (entry : PostEntry) :
    List PostEntry :=
  if posts.any (fun p => p.file == entry.file) then posts else entry :: posts

/-- Outcomes of the externally-effectful stages of one `Pipeline.run`,
abstracting the collaborating systems: preflight git check, Drive download,
the two AI calls (yielding the final post text), the posts.json write, the
git publish, and per-item `mark_processed` success. -/
structure RunEnv where
  preflight : Except PyErr Unit
  download : Except PyErr (List DriveImage)
  ai_gen : Except PyErr (List Char)
  today : List Char
  meta : Except PyErr Unit
  publish : Except PyErr Unit
  markOk : String → Bool

/-- The failure result built by `run`'s top-level `except` handler:
`message="Pipeline failed."`, `errors=[f"{type(e).__name__}: {e}"]`, and
the partially-built post's path/slug when `build_result` was already
assigned. -/
def runFail (e : PyErr) (br : Option BuildResultM) : PipelineResult :=
  { ok := false, message := "Pipeline failed.", processed_count := 0,
    post_path := br.map (·.post_path), post_slug := br.map (·.post_slug),
    errors := some [pyErrString e] }

/-- `pipeline.Pipeline.run`, with each stage's external effect replaced by
its recorded outcome in `env`.  `_resize_images` swallows all per-image
errors and is a no-op here; content assembly runs the real `buildPost`;
the `title = post_text.splitlines()[0]` subscript after assembly raises
`IndexError` on an empty line list. -/
def runPipeline (env : RunEnv) : PipelineResult :=
  match env.preflight with
  | .error e =>
    { ok := false, message := e.msg, processed_count := 0,
      post_path := none, post_slug := none, errors := some [e.msg] }
  | .ok _ =>
    match env.download with
    | .error e => runFail e none
    | .ok [] =>
      { ok := true, message := "No new images.", processed_count := 0,
        post_path := none, post_slug := none, errors := none }
    | .ok (d :: ds) =>
      match env.ai_gen with
      | .error e => runFail e none
      | .ok post_text =>
        match buildPost env.today post_text (d :: ds) with
        | .error e => runFail e none
        | .ok br =>
          match splitlines post_text with
          | [] => runFail indexError (some br)
          | _ :: _ =>
            match env.meta with
            | .error e => runFail e (some br)
            | .ok _ =>
              match env.publish with
              | .error e => runFail e (some br)
              | .ok _ =>
                { ok := true, message := "Pipeline completed successfully.",
                  processed_count := (update_state env.markOk (d :: ds)).1,
                  post_path := some br.post_path, post_slug := some br.post_slug,
                  errors := none }

theorem update_state_aux (markOk : String → Bool) :
    ∀ (l : List DriveImage) (n : Nat) (s : List String),
      l.foldl (fun acc img =>
          if markOk img.file_id then (acc.1 + 1, acc.2)
          else (acc.1, acc.2 ++ [img.file_id])) (n, s)
        = (n + (l.filter (fun i => markOk i.file_id)).length,
           s ++ (l.filter (fun i => !markOk i.file_id)).map (·.file_id)) := by
  intro l
  induction l with
  | nil => intro n s; simp
  | cons d ds ih =>
    intro n s
    by_cases h : markOk d.file_id
    · simp [h, ih, List.filter_cons, Prod.ext_iff]
      omega
    · simp [h, ih, List.filter_cons, Prod.ext_iff, List.append_assoc]

theorem update_state_spec (markOk : String → Bool) (l : List DriveImage) :
    (update_state markOk l).1 = (l.filter (fun i => markOk i.file_id)).length ∧
    (update_state markOk l).2
      = (l.filter (fun i => !markOk i.file_id)).map (·.file_id) := by
  unfold update_state
  rw [update_state_aux]
  simp

/-!
## Claims
-/

/-- **C1.** The text-generation call retries on HTTP 429 and on
`finishReason == "MAX_TOKENS"` with no usable text parts, sleeping
`base * 2^attempt + jitter` (429 base 1.2, truncation base 1.0, jitter
bounded by 0.8 resp. 0.6), makes at most 4 attempts, succeeds on the 4th
attempt after 3 rate-limited responses without a 5th request, raises the
terminal retries-exhausted error after 4 rate-limited (or truncated)
responses, and fails immediately without retry on any other non-200
status, with an error distinct from the terminal one. -/
theorem c1_generate_text_retry_policy
    (resp : Nat → GemResponse) (jr jt : Nat → ℚ)
    (hjr : ∀ i, 0 ≤ jr i ∧ jr i ≤ 4/5) (hjt : ∀ i, 0 ≤ jt i ∧ jt i ≤ 3/5) :
    (gemini_generate_text resp jr jt).requests ≤ 4 ∧
    ((∀ i, i < 3 → (resp i).status = 429) → (resp 3).status = 200 →
      textParts (resp 3) ≠ [] →
      gemini_generate_text resp jr jt =
        ⟨.ok (pyStripS (String.intercalate "\n" (textParts (resp 3)))), 4,
         [rateWait 0 (jr 0), rateWait 1 (jr 1), rateWait 2 (jr 2)]⟩) ∧
    ((∀ i, i < 4 → (resp i).status = 429) →
      gemini_generate_text resp jr jt =
        ⟨.error .failedAfterRetries, 4,
         [rateWait 0 (jr 0), rateWait 1 (jr 1), rateWait 2 (jr 2), rateWait 3 (jr 3)]⟩) ∧
    ((∀ i, i < 4 → (resp i).status = 200 ∧ textParts (resp i) = [] ∧
        finishOf (resp i) = some "MAX_TOKENS") →
      gemini_generate_text resp jr jt =
        ⟨.error .failedAfterRetries, 4,
         [truncWait 0 (jt 0), truncWait 1 (jt 1), truncWait 2 (jt 2),
          truncWait 3 (jt 3)]⟩) ∧
    ((resp 0).status ≠ 429 → (resp 0).status ≠ 200 →
      gemini_generate_text resp jr jt =
        ⟨.error (.apiError (resp 0).status (resp 0).bodyText), 1, []⟩) ∧
    (∀ s b, (GenError.failedAfterRetries : GenError) ≠ .apiError s b) ∧
    (∀ i, 6/5 * 2 ^ i ≤ rateWait i (jr i) ∧ rateWait i (jr i) ≤ 6/5 * 2 ^ i + 4/5 ∧
      1 * 2 ^ i ≤ truncWait i (jt i) ∧ truncWait i (jt i) ≤ 1 * 2 ^ i + 3/5 ∧
      truncWait i (jt i) - jt i < rateWait i (jr i) - jr i) := by
  refine ⟨?_, ?_, ?_, ?_, ?_, ?_, ?_⟩
  · simpa using genTextGo_requests_le resp jr jt 4 0 0 []
  · intro h429 h200 htxt
    have h0 := h429 0 (by omega)
    have h1 := h429 1 (by omega)
    have h2 := h429 2 (by omega)
    simp [gemini_generate_text, genTextGo, h0, h1, h2, h200, htxt]
  · intro h429
    have h0 := h429 0 (by omega)
    have h1 := h429 1 (by omega)
    have h2 := h429 2 (by omega)
    have h3 := h429 3 (by omega)
    simp [gemini_generate_text, genTextGo, h0, h1, h2, h3]
  · intro htr
    obtain ⟨s0, t0, f0⟩ := htr 0 (by omega)
    obtain ⟨s1, t1, f1⟩ := htr 1 (by omega)
    obtain ⟨s2, t2, f2⟩ := htr 2 (by omega)
    obtain ⟨s3, t3, f3⟩ := htr 3 (by omega)
    simp [gemini_generate_text, genTextGo, s0, t0, f0, s1, t1, f1, s2, t2, f2,
      s3, t3, f3]
  · intro h429 h200
    simp [gemini_generate_text, genTextGo, h429, h200]
  · intro s b h
    exact GenError.noConfusion h
  · intro i
    obtain ⟨ha, hb⟩ := hjr i
    obtain ⟨hc, hd⟩ := hjt i
    have hpow : (0 : ℚ) < 2 ^ i := by positivity
    unfold rateWait truncWait
    refine ⟨by linarith, by linarith, by linarith, by linarith, by linarith⟩

/-- Responses for the C1 witness: three 429s and then a usable answer. -/
def c1wResp : Nat → GemResponse := fun i =>
  if i < 3 then ⟨429, "rate limited", [], "rl"⟩
  else ⟨200, "body", [⟨[some "hello"], some "STOP"⟩], "d"⟩

theorem c1_witness :
    gemini_generate_text c1wResp (fun _ => 0) (fun _ => 0) =
      ⟨.ok "hello", 4, [rateWait 0 0, rateWait 1 0, rateWait 2 0]⟩ := by
  have h := (c1_generate_text_retry_policy c1wResp (fun _ => 0) (fun _ => 0)
    (fun i => by norm_num) (fun i => by norm_num)).2.1
  have h2 := h (fun i hi => by interval_cases i <;> rfl) rfl (by decide)
  rw [h2]
  rfl

/-- `json.loads` restricted to the inputs of the C2 scenario: `"[]"` is
valid JSON denoting the empty array, as in Python. -/
def c2Parse : String → Option PyJson :=
  fun s => if s = "[]" then some (.arr []) else none

/-- A 200 response whose (fenced) text is the valid-JSON array `[]` —
not the `{"images": [...]}` shape. -/
def c2Resp : GemResponse :=
  ⟨200, "body", [⟨[some "```json\n[]\n```"], some "STOP"⟩], "d"⟩

/-- **C2, counterexample.** A caption response whose text parses to valid
JSON of an unexpected shape (`[]`, not `{"images": [...]}`) does NOT make
the call raise: `_gemini_generate_captions_json` returns the parsed value
unvalidated, so no "malformed captions" error exists for this input. -/
theorem c2_counterexample :
    gemCaptions c2Parse c2Resp = .ok (.arr []) ∧
    hasImagesShape (.arr []) = false ∧
    ∀ err, gemCaptions c2Parse c2Resp ≠ .error err := by
  refine ⟨rfl, rfl, ?_⟩
  intro err h
  rw [(rfl : gemCaptions c2Parse c2Resp = .ok (.arr []))] at h
  exact Except.noConfusion h

/-- **C2, amended.** `_gemini_generate_captions_json` performs no shape
validation: after stripping markdown code fences, any text that
`json.loads` accepts is returned as-is (whatever its shape); only text
that fails to parse raises, and that error carries `cleaned[:800]` — a
prefix of the fence-stripped text of length at most 800, never the full
payload beyond that bound. -/
theorem c2_amended_no_shape_validation (parse : String → Option PyJson)
    (r : GemResponse) (text : String)
    (h200 : r.status = 200) (htext : firstPartText r = some text) :
    (∀ v, parse (cleanFence text.toList).asString = some v →
      gemCaptions parse r = .ok v) ∧
    (parse (cleanFence text.toList).asString = none →
      gemCaptions parse r =
        .error (.parseFailed ((cleanFence text.toList).take 800).asString)) ∧
    ((cleanFence text.toList).take 800).length ≤ 800 ∧
    (∃ rest, cleanFence text.toList = (cleanFence text.toList).take 800 ++ rest) := by
  refine ⟨?_, ?_, ?_, ?_⟩
  · intro v hv
    have hv' : parse (cleanFence text.data).asString = some v := hv
    simp [gemCaptions, h200, htext, hv']
  · intro hv
    have hv' : parse (cleanFence text.data).asString = none := hv
    simp [gemCaptions, h200, htext, hv']
  · simpa using List.length_take_le 800 (cleanFence text.toList)
  · exact ⟨(cleanFence text.toList).drop 800, (List.take_append_drop _ _).symm⟩

theorem c2_witness :
    gemCaptions c2Parse c2Resp = .ok (.arr []) ∧
    cleanFence "```json\n[]\n```".toList = "[]".toList := by
  constructor
  · exact (c2_amended_no_shape_validation c2Parse c2Resp "```json\n[]\n```"
      rfl rfl).1 (.arr []) (by rfl)
  · decide

/-- A 51-character title: its base slug is truncated to 50 `'a'`s. -/
def c3Title : List Char := List.replicate 51 'a'

/-- An image whose id begins `ab_cde...`: the first six characters of the
id are appended to the slug without sanitisation. -/
def c3Img : DriveImage := ⟨"ab_cdef123", "img.jpg", "image/jpeg", "t", none⟩

/-- **C3, counterexample.** The slug of the produced post is the base slug
plus `"-"` plus the first 6 id characters: for a 51-character title and id
`"ab_cdef123"` it has 57 characters (exceeding the claimed 50) and
contains `'_'`, which is outside the claimed ASCII/digit/Hangul/hyphen
character set. -/
theorem c3_counterexample :
    (build_slug c3Title [c3Img]).length = 57 ∧
    ¬ ((build_slug c3Title [c3Img]).length ≤ 50) ∧
    '_' ∈ build_slug c3Title [c3Img] ∧
    isSlugChar '_' = false := by
  refine ⟨by decide, by decide, by decide, by decide⟩

/-- **C3, amended.** The slug is deterministic in (title, disambiguator);
the base slug satisfies the claimed invariants (allowed characters, at
most 50 characters, never empty, whitespace-only titles give the fallback
`"post"`); the full slug appends `'-'` and the disambiguator (the first 6
characters of the first image's id, or `"post"` when there is no image or
its id is empty), is at most 57 characters, never empty, and lies in the
allowed character set exactly when the appended id characters do. -/
theorem c3_amended_slug_properties (title : List Char) (images : List DriveImage) :
    (∀ t' i', make_slug t' = make_slug title → build_suffix i' = build_suffix images →
      build_slug t' i' = build_slug title images) ∧
    (make_slug title).length ≤ 50 ∧
    make_slug title ≠ [] ∧
    (∀ c ∈ make_slug title, isSlugChar c = true) ∧
    ((∀ c ∈ title, pyIsSpace c = true) → make_slug title = "post".toList) ∧
    build_slug title images = make_slug title ++ ('-' :: build_suffix images) ∧
    (build_slug title images).length ≤ 57 ∧
    build_slug title images ≠ [] ∧
    (images = [] → build_suffix images = "post".toList) ∧
    (∀ img rest, images = img :: rest → img.file_id ≠ "" →
      build_suffix images = img.file_id.toList.take 6) ∧
    ((∀ c ∈ build_suffix images, isSlugChar c = true) →
      ∀ c ∈ build_slug title images, isSlugChar c = true) := by
  refine ⟨?_, make_slug_length title, make_slug_ne_nil title, make_slug_chars title,
    fun h => make_slug_of_whitespace h, build_slug_eq title images,
    build_slug_length title images, build_slug_ne_nil title images, ?_, ?_,
    build_slug_chars title images⟩
  · intro t' i' ht hi
    rw [build_slug_eq, build_slug_eq, ht, hi]
  · rintro rfl; rfl
  · rintro img rest rfl hid
    simp [build_suffix, hid]

theorem c3_witness :
    build_slug "  Hello  World!  ".toList [c3Img] = "Hello-World-ab_cde".toList ∧
    make_slug "   ".toList = "post".toList ∧
    build_suffix [] = "post".toList := by
  refine ⟨by decide, ?_, ?_⟩
  · exact (c3_amended_slug_properties "   ".toList []).2.2.2.2.1 (by decide)
  · exact (c3_amended_slug_properties "   ".toList []).2.2.2.2.2.2.2.2.1 rfl

/-- **C4, counterexample.** With a draft containing all four tokens and
N = 1 supplied path whose text is itself `"[[IMAGE_1]]"`, substitution
leaves the token `[[IMAGE_1]]` in the output: replacement is not
guaranteed to remove every token for arbitrary paths. -/
theorem c4_counterexample :
    (["[[IMAGE_1]]".toList] : List (List Char)).length ≤ 4 ∧
    inject_images "[[IMAGE_1]][[IMAGE_2]][[IMAGE_3]][[IMAGE_4]]".toList
        ["[[IMAGE_1]]".toList] = "[[IMAGE_1]]".toList ∧
    occursIn (tok 1)
      (inject_images "[[IMAGE_1]][[IMAGE_2]][[IMAGE_3]][[IMAGE_4]]".toList
        ["[[IMAGE_1]]".toList]) := by
  refine ⟨by decide, by decide, ?_⟩
  rw [(by decide : inject_images "[[IMAGE_1]][[IMAGE_2]][[IMAGE_3]][[IMAGE_4]]".toList
        ["[[IMAGE_1]]".toList] = "[[IMAGE_1]]".toList)]
  exact ⟨[], [], by decide⟩

/-- **C4, amended.** For a draft in which `[[IMAGE_1]]`..`[[IMAGE_4]]`
occur once each in order, provided the non-token draft segments and the
supplied paths contain no `'['` character, `_inject_images` replaces the
first `len(paths)` tokens by the corresponding paths in index order
(`rPath`), removes the remaining tokens, applies only the blank-line fix
`re.sub(r"\)\s*!\[", ")\n\n![", ·)`, and leaves no token in the output;
without the bracket-freedom proviso a token can survive
(`c4_counterexample`). -/
theorem c4_amended_injection (s0 s1 s2 s3 s4 : List Char)
    (paths : List (List Char))
    (h0 : brFree s0) (h1 : brFree s1) (h2 : brFree s2) (h3 : brFree s3)
    (h4 : brFree s4) (hp : ∀ p ∈ paths, brFree p) :
    inject_images
        (s0 ++ (tok 1 ++ (s1 ++ (tok 2 ++ (s2 ++ (tok 3 ++ (s3 ++ (tok 4 ++ s4))))))))
        paths
      = fixImgJoin
          (s0 ++ (rPath paths 1 ++ (s1 ++ (rPath paths 2 ++
            (s2 ++ (rPath paths 3 ++ (s3 ++ (rPath paths 4 ++ s4)))))))) ∧
    (∀ i, 1 ≤ i → i ≤ paths.length → rPath paths i = paths.getD (i - 1) []) ∧
    (∀ i, paths.length < i → rPath paths i = []) ∧
    (∀ k, ¬ occursIn (tok k)
      (inject_images
        (s0 ++ (tok 1 ++ (s1 ++ (tok 2 ++ (s2 ++ (tok 3 ++ (s3 ++ (tok 4 ++ s4))))))))
        paths)) := by
  refine ⟨inject_images_subst s0 s1 s2 s3 s4 paths h0 h1 h2 h3 h4 hp, ?_, ?_, ?_⟩
  · intro i _ hi
    simp [rPath, hi]
  · intro i hi
    simp [rPath, Nat.not_le.2 hi]
  · intro k
    exact inject_images_no_token_aux s0 s1 s2 s3 s4 paths h0 h1 h2 h3 h4 hp k

theorem c4_witness :
    inject_images
        ("intro ".toList ++ (tok 1 ++ (" mid ".toList ++ (tok 2 ++
          (" end".toList ++ (tok 3 ++ ("".toList ++ (tok 4 ++ "".toList))))))))
        ["/blog/a.png".toList, "/blog/b.png".toList]
      = "intro /blog/a.png mid /blog/b.png end".toList ∧
    ¬ occursIn (tok 1)
      (inject_images
        ("intro ".toList ++ (tok 1 ++ (" mid ".toList ++ (tok 2 ++
          (" end".toList ++ (tok 3 ++ ("".toList ++ (tok 4 ++ "".toList))))))))
        ["/blog/a.png".toList, "/blog/b.png".toList]) := by
  have h := c4_amended_injection "intro ".toList " mid ".toList " end".toList
    "".toList "".toList ["/blog/a.png".toList, "/blog/b.png".toList]
    (by unfold brFree; decide) (by unfold brFree; decide) (by unfold brFree; decide)
    (by unfold brFree; decide) (by unfold brFree; decide)
    (by intro p hp; fin_cases hp <;> unfold brFree <;> decide)
  refine ⟨?_, h.2.2.2 1⟩
  rw [h.1]
  decide

/-- A fresh image for the C5 counterexample. -/
def c5Img : DriveImage := ⟨"id1", "photo.jpg", "image/jpeg", "t1", none⟩

/-- **C5, counterexample.** With `batch_size = 0` (the config value
`pipeline.batch_size` is an arbitrary int), `pick_new_images` returns one
item, not at most `batch_size`: the fullness check `len(new) >= batch_size`
runs only *after* an item has been appended. -/
theorem c5_counterexample :
    pick_new_images (fun _ => false) 0 [c5Img] = [c5Img] ∧
    ¬ ((pick_new_images (fun _ => false) 0 [c5Img]).length ≤ 0) := by
  exact ⟨by decide, by decide⟩

/-- **C5, amended.** Selection returns only items whose id is not
processed; for a positive `batch_size` it returns at most `batch_size`
items and, once the batch is full, appending further listing entries
cannot change the result (the scan stops); selection is deterministic
(re-running without an intervening `mark_processed` returns the same
candidates); and after `mark_processed(id, slug)` no selection against the
updated tracker returns `id` (marking is also monotone: it never unmarks).
For `batch_size = 0` the bound fails (`c5_counterexample`). -/
theorem c5_amended_selection (isP : String → Bool) (batch : Nat)
    (listing : List DriveImage) (st : StateClientState) :
    (∀ i ∈ pick_new_images isP batch listing, isP i.file_id = false) ∧
    (1 ≤ batch → (pick_new_images isP batch listing).length ≤ batch) ∧
    (1 ≤ batch → ∀ extra, batch ≤ (pick_new_images isP batch listing).length →
      pick_new_images isP batch (listing ++ extra)
        = pick_new_images isP batch listing) ∧
    pick_new_images isP batch listing = pick_new_images isP batch listing ∧
    (∀ id slug x, is_processed st x = true →
      is_processed (mark_processed st id slug) x = true) ∧
    (∀ id slug,
      ∀ i ∈ pick_new_images (fun x => is_processed (mark_processed st id slug) x)
        batch listing, i.file_id ≠ id) := by
  refine ⟨?_, ?_, ?_, rfl, ?_, ?_⟩
  · exact pickNewAux_unprocessed isP batch listing [] (by simp)
  · intro hb
    exact pickNewAux_length isP batch listing [] (by simpa using hb)
  · intro hb extra hfull
    exact pickNewAux_stops isP batch listing extra [] (by simpa using hb) hfull
  · intro id slug x hx
    simp only [is_processed, mark_processed, List.any_cons, Bool.or_eq_true]
    right
    exact hx
  · intro id slug i hi
    have h := pickNewAux_unprocessed (fun x => is_processed (mark_processed st id slug) x)
      batch listing [] (by simp) i hi
    intro hcontra
    rw [hcontra] at h
    unfold is_processed mark_processed at h
    simp at h

theorem c5_witness :
    pick_new_images (fun x => is_processed (mark_processed ⟨[]⟩ "id1" "slug") x) 4
        [c5Img, ⟨"id2", "p2.jpg", "image/jpeg", "t2", none⟩]
      = [⟨"id2", "p2.jpg", "image/jpeg", "t2", none⟩] ∧
    (pick_new_images (fun _ => false) 4
        [c5Img, ⟨"id2", "p2.jpg", "image/jpeg", "t2", none⟩]).length ≤ 4 ∧
    ∀ i ∈ pick_new_images (fun x => is_processed (mark_processed ⟨[]⟩ "id1" "slug") x) 4
        [c5Img, ⟨"id2", "p2.jpg", "image/jpeg", "t2", none⟩], i.file_id ≠ "id1" := by
  refine ⟨by decide, ?_, ?_⟩
  · exact (c5_amended_selection (fun _ => false) 4
      [c5Img, ⟨"id2", "p2.jpg", "image/jpeg", "t2", none⟩] ⟨[]⟩).2.1 (by decide)
  · exact (c5_amended_selection
      (fun x => is_processed (mark_processed ⟨[]⟩ "id1" "slug") x) 4
      [c5Img, ⟨"id2", "p2.jpg", "image/jpeg", "t2", none⟩] ⟨[]⟩).2.2.2.2.2 "id1" "slug"

/-- **C6.** When every stage up to and including the publish succeeds but
`mark_processed` fails for some items, the run still reports overall
success: `processed_count` is the number of successfully marked items
(strictly below the attempted count when some marking failed), the failed
ids are collected (logged) rather than retried — each downloaded item is
attempted exactly once, successes and logged failures partitioning the
batch — and the result carries no error list. -/
theorem c6_partial_marking_success (env : RunEnv) (d : DriveImage)
    (ds : List DriveImage) (post_text : List Char) (br : BuildResultM)
    (hpre : env.preflight = .ok ()) (hdl : env.download = .ok (d :: ds))
    (hai : env.ai_gen = .ok post_text)
    (hbuild : buildPost env.today post_text (d :: ds) = .ok br)
    (hline : splitlines post_text ≠ [])
    (hmeta : env.meta = .ok ()) (hpub : env.publish = .ok ()) :
    (runPipeline env).ok = true ∧
    (runPipeline env).message = "Pipeline completed successfully." ∧
    (runPipeline env).errors = none ∧
    (runPipeline env).processed_count
      = ((d :: ds).filter (fun i => env.markOk i.file_id)).length ∧
    (update_state env.markOk (d :: ds)).2
      = ((d :: ds).filter (fun i => !env.markOk i.file_id)).map (·.file_id) ∧
    (runPipeline env).processed_count
        + (update_state env.markOk (d :: ds)).2.length = (d :: ds).length ∧
    ((∃ i ∈ d :: ds, env.markOk i.file_id = false) →
      (runPipeline env).processed_count < (d :: ds).length) := by
  obtain ⟨l0, ls, hsp⟩ := List.exists_cons_of_ne_nil hline
  have hrun : runPipeline env =
      { ok := true, message := "Pipeline completed successfully.",
        processed_count := (update_state env.markOk (d :: ds)).1,
        post_path := some br.post_path, post_slug := some br.post_slug,
        errors := none } := by
    simp only [runPipeline, hpre, hdl, hai, hbuild, hsp, hmeta, hpub]
  obtain ⟨hcnt, hlog⟩ := update_state_spec env.markOk (d :: ds)
  have hsum : ((d :: ds).filter (fun i => env.markOk i.file_id)).length
      + ((d :: ds).filter (fun i => !env.markOk i.file_id)).length
      = (d :: ds).length := by
    exact (@List.length_eq_length_filter_add DriveImage (d :: ds)
      (fun i => env.markOk i.file_id)).symm
  refine ⟨by rw [hrun], by rw [hrun], by rw [hrun], by rw [hrun]; exact hcnt, hlog, ?_, ?_⟩
  · rw [hrun]
    simp only [hcnt, hlog, List.length_map]
    exact hsum
  · rintro ⟨i, hi, hfail⟩
    rw [hrun]
    simp only [hcnt]
    have hmem : i ∈ (d :: ds).filter (fun j => !env.markOk j.file_id) :=
      List.mem_filter.2 ⟨hi, by simp [hfail]⟩
    have hpos : 0 < ((d :: ds).filter (fun j => !env.markOk j.file_id)).length :=
      List.length_pos.2 (List.ne_nil_of_mem hmem)
    omega

def c6d1 : DriveImage := ⟨"idA", "a.jpg", "image/jpeg", "t1", none⟩

def c6d2 : DriveImage := ⟨"idB", "b.jpg", "image/jpeg", "t2", none⟩

/-- A run in which everything succeeds except `mark_processed` for
`"idB"`. -/
def c6Env : RunEnv :=
  { preflight := .ok (), download := .ok [c6d1, c6d2],
    ai_gen := .ok "Title\nbody".toList, today := "2025-01-01".toList,
    meta := .ok (), publish := .ok (), markOk := fun s => s == "idA" }

theorem c6_witness :
    (runPipeline c6Env).ok = true ∧
    (runPipeline c6Env).processed_count = 1 ∧
    (update_state c6Env.markOk [c6d1, c6d2]).2 = ["idB"] ∧
    (runPipeline c6Env).processed_count < 2 := by
  have h := c6_partial_marking_success c6Env c6d1 [c6d2] "Title\nbody".toList
    ⟨"2025-01-01-Title-idA.md", "Title-idA", ["a.jpg", "b.jpg"]⟩
    rfl rfl rfl rfl (by decide) rfl rfl
  refine ⟨h.1, ?_, by decide, ?_⟩
  · rw [h.2.2.2.1]; decide
  · exact h.2.2.2.2.2.2 ⟨c6d2, by decide, by decide⟩

/-- Fields of the failure result produced by `run`'s `except` handler. -/
theorem runFail_fields (e : PyErr) (br : Option BuildResultM) :
    (runFail e br).ok = false ∧ (runFail e br).message = "Pipeline failed." ∧
    (runFail e br).errors = some [pyErrString e] ∧
    (runFail e br).post_path = br.map (·.post_path) ∧
    (runFail e br).post_slug = br.map (·.post_slug) :=
  ⟨rfl, rfl, rfl, rfl, rfl⟩

/-- **C7.** Every run yields a structured result: when it fails, the
result carries a non-empty singleton list of error strings of the form
`"<ErrorType>: <message>"`, and the message is either the fixed
`"Pipeline failed."` or, for the preflight security check, the
exception's own message; moreover, once content assembly has produced a
`BuildResult`, any later failure (the title subscript's `IndexError`, the
manifest write, or the git publish) yields a failure result that still
carries the partially-built post's path and slug.  (In the model, the
top-level `except` is what makes `runPipeline` total: no stage outcome
escapes as an exception.) -/
theorem c7_run_structured_result (env : RunEnv) :
    ((runPipeline env).ok = false →
      ∃ es, (runPipeline env).errors = some es ∧ es ≠ []) ∧
    ((runPipeline env).ok = false →
      (runPipeline env).message = "Pipeline failed." ∨
        ∃ e, env.preflight = .error e ∧ (runPipeline env).message = e.msg) ∧
    (∀ e br, (runFail e br).ok = false ∧
      (runFail e br).errors = some [pyErrString e] ∧
      pyErrString e = e.ty ++ ": " ++ e.msg ∧
      (runFail e br).post_path = br.map (·.post_path) ∧
      (runFail e br).post_slug = br.map (·.post_slug)) ∧
    (∀ d ds post_text br, env.preflight = .ok () → env.download = .ok (d :: ds) →
      env.ai_gen = .ok post_text →
      buildPost env.today post_text (d :: ds) = .ok br →
      ((splitlines post_text = [] → runPipeline env = runFail indexError (some br)) ∧
       (∀ l0 ls e, splitlines post_text = l0 :: ls → env.meta = .error e →
          runPipeline env = runFail e (some br)) ∧
       (∀ l0 ls e, splitlines post_text = l0 :: ls → env.meta = .ok () →
          env.publish = .error e → runPipeline env = runFail e (some br)))) := by
  have main : (runPipeline env).ok = true ∨
      ((∃ es, (runPipeline env).errors = some es ∧ es ≠ []) ∧
       ((runPipeline env).message = "Pipeline failed." ∨
         ∃ e, env.preflight = .error e ∧ (runPipeline env).message = e.msg)) := by
    rcases hpre : env.preflight with e | u
    · right
      simp only [runPipeline, hpre]
      exact ⟨⟨[e.msg], rfl, by simp⟩, Or.inr ⟨e, rfl, rfl⟩⟩
    · rcases hdl : env.download with e | l
      · right
        simp only [runPipeline, hpre, hdl]
        exact ⟨⟨[pyErrString e], rfl, by simp⟩, Or.inl rfl⟩
      · cases l with
        | nil => left; simp [runPipeline, hpre, hdl]
        | cons d ds =>
          rcases hai : env.ai_gen with e | pt
          · right
            simp only [runPipeline, hpre, hdl, hai]
            exact ⟨⟨[pyErrString e], rfl, by simp⟩, Or.inl rfl⟩
          · rcases hb : buildPost env.today pt (d :: ds) with e | br
            · right
              simp only [runPipeline, hpre, hdl, hai, hb]
              exact ⟨⟨[pyErrString e], rfl, by simp⟩, Or.inl rfl⟩
            · rcases hsp : splitlines pt with _ | ⟨l0, ls⟩
              · right
                simp only [runPipeline, hpre, hdl, hai, hb, hsp]
                exact ⟨⟨[pyErrString indexError], rfl, by simp⟩, Or.inl rfl⟩
              · rcases hmeta : env.meta with e | u2
                · right
                  simp only [runPipeline, hpre, hdl, hai, hb, hsp, hmeta]
                  exact ⟨⟨[pyErrString e], rfl, by simp⟩, Or.inl rfl⟩
                · rcases hpub : env.publish with e | u3
                  · right
                    simp only [runPipeline, hpre, hdl, hai, hb, hsp, hmeta, hpub]
                    exact ⟨⟨[pyErrString e], rfl, by simp⟩, Or.inl rfl⟩
                  · left
                    simp [runPipeline, hpre, hdl, hai, hb, hsp, hmeta, hpub]
  refine ⟨?_, ?_, fun e br => ⟨rfl, rfl, rfl, rfl, rfl⟩, ?_⟩
  · intro hok
    rcases main with h | h
    · rw [h] at hok; exact absurd hok (by simp)
    · exact h.1
  · intro hok
    rcases main with h | h
    · rw [h] at hok; exact absurd hok (by simp)
    · exact h.2
  · intro d ds post_text br hpre hdl hai hb
    refine ⟨?_, ?_, ?_⟩
    · intro hsp
      simp only [runPipeline, hpre, hdl, hai, hb, hsp]
    · intro l0 ls e hsp hmeta
      simp only [runPipeline, hpre, hdl, hai, hb, hsp, hmeta]
    · intro l0 ls e hsp hmeta hpub
      simp only [runPipeline, hpre, hdl, hai, hb, hsp, hmeta, hpub]

/-- A run whose git publish fails after content assembly succeeded. -/
def c7Env : RunEnv :=
  { preflight := .ok (), download := .ok [c6d1],
    ai_gen := .ok "Title\nbody".toList, today := "2025-01-01".toList,
    meta := .ok (), publish := .error ⟨"RuntimeError", "push rejected"⟩,
    markOk := fun _ => true }

theorem c7_witness :
    runPipeline c7Env =
      runFail ⟨"RuntimeError", "push rejected"⟩
        (some ⟨"2025-01-01-Title-idA.md", "Title-idA", ["a.jpg"]⟩) ∧
    (runPipeline c7Env).ok = false ∧
    (runPipeline c7Env).errors = some ["RuntimeError: push rejected"] ∧
    (runPipeline c7Env).post_slug = some "Title-idA" := by
  have h := (c7_run_structured_result c7Env).2.2.2 c6d1 [] "Title\nbody".toList
    ⟨"2025-01-01-Title-idA.md", "Title-idA", ["a.jpg"]⟩ rfl rfl rfl rfl
  have h2 := h.2.2 "Title".toList ["body".toList] ⟨"RuntimeError", "push rejected"⟩
    (by decide) rfl rfl
  refine ⟨h2, ?_, ?_, ?_⟩ <;> rw [h2] <;> rfl

/-- **C8.** Manifest insertion dedups by filename only: an entry whose
`file` matches an existing entry leaves the manifest unchanged (hence of
unchanged length), and an entry with a fresh `file` is prepended at
position 0. -/
theorem c8_manifest_dedup (posts : List PostEntry) (entry : PostEntry) :
    ((∃ p ∈ posts, p.file = entry.file) →
      update_posts_metadata posts entry = posts ∧
      (update_posts_metadata posts entry).length = posts.length) ∧
    ((∀ p ∈ posts, p.file ≠ entry.file) →
      update_posts_metadata posts entry = entry :: posts ∧
      (update_posts_metadata posts entry).length = posts.length + 1 ∧
      (update_posts_metadata posts entry).head? = some entry) := by
  constructor
  · rintro ⟨p, hp, hf⟩
    have hany : posts.any (fun q => q.file == entry.file) = true :=
      List.any_eq_true.2 ⟨p, hp, by simp [hf]⟩
    unfold update_posts_metadata
    rw [if_pos hany]
    exact ⟨rfl, rfl⟩
  · intro hall
    have hany : ¬ (posts.any (fun q => q.file == entry.file) = true) := by
      intro hcontra
      obtain ⟨p, hp, hf⟩ := List.any_eq_true.1 hcontra
      exact hall p hp (by simpa using hf)
    unfold update_posts_metadata
    rw [if_neg hany]
    exact ⟨rfl, by simp, rfl⟩

def c8Entry1 : PostEntry := ⟨"Old title", "2025-01-01-a.md", "2025-01-01", ["blog"]⟩

def c8Entry1' : PostEntry := ⟨"New title", "2025-01-01-a.md", "2025-01-02", ["blog"]⟩

def c8Entry2 : PostEntry := ⟨"Other", "2025-01-02-b.md", "2025-01-02", ["blog"]⟩

theorem c8_witness :
    update_posts_metadata [c8Entry1] c8Entry1' = [c8Entry1] ∧
    update_posts_metadata [c8Entry1] c8Entry2 = [c8Entry2, c8Entry1] := by
  constructor
  · exact ((c8_manifest_dedup [c8Entry1] c8Entry1').1 ⟨c8Entry1, by simp, rfl⟩).1
  · exact ((c8_manifest_dedup [c8Entry1] c8Entry2).2
      (by intro p hp; fin_cases hp; decide)).1

/-- **C9.** Title extraction is not total: the empty draft maps to the
placeholder `"Untitled"`, but any non-empty draft made only of whitespace
makes `_extract_title` — and hence `ContentBuilder.build` — raise
`IndexError` (the `[0]` subscript on the empty `splitlines()` list)
instead of returning the placeholder. -/
theorem c9_extract_title_partiality (s : List Char) (images : List DriveImage)
    (today : List Char) :
    extract_title [] = .ok "Untitled".toList ∧
    (s ≠ [] → (∀ c ∈ s, pyIsSpace c = true) →
      extract_title s = .error indexError ∧
      buildPost today s images = .error indexError ∧
      indexError.ty = "IndexError") := by
  refine ⟨rfl, ?_⟩
  intro hne hws
  have hstrip : pyStrip s = [] := by
    unfold pyStrip
    rw [List.dropWhile_eq_nil_iff.2 hws]
    rfl
  have het : extract_title s = .error indexError := by
    unfold extract_title
    rw [if_neg hne, hstrip]
    rfl
  refine ⟨het, ?_, rfl⟩
  unfold buildPost
  rw [het]

theorem c9_witness :
    extract_title "   ".toList = .error indexError ∧
    extract_title "\n\n".toList = .error indexError ∧
    buildPost "2025-01-01".toList "   ".toList [] = .error indexError ∧
    extract_title [] = .ok "Untitled".toList := by
  have h1 := (c9_extract_title_partiality "   ".toList [] "2025-01-01".toList).2
    (by decide) (by decide)
  have h2 := (c9_extract_title_partiality "\n\n".toList [] "2025-01-01".toList).2
    (by decide) (by decide)
  exact ⟨h1.1, h2.1, h1.2.1, rfl⟩

/-- A two-part 200 response: the captions call reads only `"A"`, whereas
the text call concatenates to `"A\nB"`. -/
def c10Resp2 : GemResponse := ⟨200, "b", [⟨[some "A", some "B"], some "STOP"⟩], "d"⟩

/-- A rate-limited response: the captions call fails at once, the text
call would retry four times. -/
def c10Resp429 : GemResponse := ⟨429, "ratelimited", [], "d"⟩

/-- **C10.** The caption-generation call performs no retry at all: it
issues exactly one request, depends only on the first response, and raises
the provider error immediately for every non-200 status — including 429,
for which the text-generation call would instead retry until its four
attempts are exhausted; and it reads its text from the first part of the
first candidate only, rather than concatenating all text segments as the
text-generation call does. -/
theorem c10_captions_no_retry (parse : String → Option PyJson)
    (resp : Nat → GemResponse) :
    ((resp 0).status ≠ 200 →
      (gemCaptionsCall parse resp).1
        = .error (.apiError (resp 0).status (resp 0).bodyText)) ∧
    ((resp 0).status = 429 →
      (gemCaptionsCall parse resp).1 = .error (.apiError 429 (resp 0).bodyText)) ∧
    (gemCaptionsCall parse resp).2 = 1 ∧
    (∀ resp', resp 0 = resp' 0 →
      gemCaptionsCall parse resp = gemCaptionsCall parse resp') ∧
    (∀ c rest t ps, (resp 0).candidates = c :: rest → c.parts = some t :: ps →
      firstPartText (resp 0) = some t) ∧
    firstPartText c10Resp2 = some "A" ∧
    textParts c10Resp2 = ["A", "B"] ∧
    (gemini_generate_text (fun _ => c10Resp2) (fun _ => 0) (fun _ => 0)).outcome
      = .ok "A\nB" ∧
    (gemini_generate_text (fun _ => c10Resp429) (fun _ => 0) (fun _ => 0)).requests
      = 4 ∧
    (gemCaptionsCall parse (fun _ => c10Resp429)).2 = 1 := by
  refine ⟨?_, ?_, rfl, ?_, ?_, rfl, by decide, rfl, rfl, rfl⟩
  · intro h
    simp [gemCaptionsCall, gemCaptions, h]
  · intro h
    have hne : (resp 0).status ≠ 200 := by rw [h]; decide
    simp [gemCaptionsCall, gemCaptions, hne, h]
  · intro resp' h
    unfold gemCaptionsCall
    rw [h]
  · intro c rest t ps hc hp
    unfold firstPartText
    rw [hc]
    simp only [hp]

/-- `json.loads` never consulted in the C10 scenario. -/
def c10Parse : String → Option PyJson := fun _ => none

theorem c10_witness :
    (gemCaptionsCall c10Parse (fun _ => c10Resp429)).1
      = .error (.apiError 429 "ratelimited") ∧
    (gemCaptionsCall c10Parse (fun _ => c10Resp429)).2 = 1 ∧
    (gemini_generate_text (fun _ => c10Resp429) (fun _ => 0) (fun _ => 0)).requests
      = 4 := by
  have h := c10_captions_no_retry c10Parse (fun _ => c10Resp429)
  exact ⟨h.2.1 rfl, h.2.2.1, h.2.2.2.2.2.2.2.2.1⟩

end Hy
